import Mathlib

/-!
# Verification of the scoring core of the cybersecurity self-assessment tool

Shallow embedding of `src/app/logic.py`: the pure scoring function
`calculate_scores` and the recommendation generator `generate_recommendations`.

Python `dict`s (insertion-ordered, unique keys) are modelled as association
lists with Python's operational semantics: `d[k] = v` updates in place when the
key exists and appends otherwise (`dictInsert`), `d.get(k, default)`
(`dictGetD`), `d.setdefault(k, v)` (`dictSetdefault`), `d.get(k)`
(`alookup`).  Question weights are integers (`Int`, as in `questions.json`);
Python float arithmetic on scores is modelled exactly with `ℚ` (all the
quantities involved are ratios of integers times 100).
-/

/-- First-match lookup in an association list; models Python `d.get(k)`
returning `None` when absent. -/
def alookup {α : Type} : List (String × α) → String → Option α
  | [], _ => none
  | (k, v) :: d, k0 => if k0 = k then some v else alookup d k0

/-- Python `d.get(k, default)`. -/
def dictGetD {α : Type} (d : List (String × α)) (k : String) (v0 : α) : α :=
  (alookup d k).getD v0

/-- Python `d[k] = v`: update in place when `k` is present (keeping its
position), append `(k, v)` otherwise. -/
def dictInsert {α : Type} : List (String × α) → String → α → List (String × α)
  | [], k, v => [(k, v)]
  | (k1, v1) :: d, k, v =>
    if k1 = k then (k, v) :: d else (k1, v1) :: dictInsert d k v

/-- Python `d.setdefault(k, v)`: append `(k, v)` when `k` is absent, otherwise
leave `d` unchanged. -/
def dictSetdefault {α : Type} (d : List (String × α)) (k : String) (v : α) :
    List (String × α) :=
  if (alookup d k).isSome then d else d ++ [(k, v)]

/-- A question record with all the fields the scoring core reads.
`good_answer?` is `none` when the JSON record has no `good_answer` key
(the code then defaults it to `"yes"`). -/
structure Question where
  id : String
  pillar : String
  weight : Int
  good_answer? : Option String
deriving Repr, DecidableEq

/-- `q.get("good_answer", "yes")` from `logic.py` line 46 / 125. -/
def goodAnswerOf (q : Question) : String := q.good_answer?.getD "yes"

/-- The answers mapping: question id → literal answer string. -/
abbrev Answers := List (String × String)

/-- The summary dict returned by `calculate_scores` (lines 71-77). -/
structure Summary where
  risk_points : Int
  max_risk : Int
  risk_percentage : ℚ
  security_score : ℚ
  risk_level : String
deriving Repr, DecidableEq

/-- State threaded through the scoring loop of `calculate_scores`
(lines 38-41): `risk_points`, `pillar_max`, `pillar_risk`. -/
structure ScoreState where
  risk_points : Int
  pillar_max : List (String × Int)
  pillar_risk : List (String × Int)
deriving Repr, DecidableEq

/-- One iteration of the loop at `logic.py` lines 43-55. -/
def scoreStep (answers : Answers) (st : ScoreState) (q : Question) : ScoreState :=
  let pillar := q.pillar
  let weight := q.weight
  let good_answer := goodAnswerOf q
  let user_answer := alookup answers q.id
  let pillar_max := dictInsert st.pillar_max pillar (dictGetD st.pillar_max pillar 0 + weight)
  match user_answer with
  | some a =>
    if a ≠ good_answer then
      { risk_points := st.risk_points + weight
        pillar_max := pillar_max
        pillar_risk := dictInsert st.pillar_risk pillar (dictGetD st.pillar_risk pillar 0 + weight) }
    else
      { risk_points := st.risk_points
        pillar_max := pillar_max
        pillar_risk := dictSetdefault st.pillar_risk pillar 0 }
  | none =>
    { risk_points := st.risk_points
      pillar_max := pillar_max
      pillar_risk := dictSetdefault st.pillar_risk pillar 0 }

/-- The risk-tier mapping of `logic.py` lines 64-69. -/
def riskLevelOf (security_score : ℚ) : String :=
  if security_score ≥ 80 then "LOW"
  else if security_score ≥ 50 then "MEDIUM"
  else "HIGH"

/-- The body of the `pillar_scores` loop of `logic.py` lines 80-87, for one
`(pillar, max_w)` entry of `pillar_max`. -/
def pillarScoreFn (pillar_risk : List (String × Int)) (pm : String × Int) : String × ℚ :=
  let risk_w := dictGetD pillar_risk pm.1 0
  if pm.2 = 0 then (pm.1, (100 : ℚ))
  else (pm.1, 100 - ((risk_w : ℚ) / (pm.2 : ℚ)) * 100)

/-- `calculate_scores` (`logic.py` lines 25-89): returns the summary dict and
the `pillar_scores` dict. -/
def calculate_scores (questions : List Question) (answers : Answers) :
    Summary × List (String × ℚ) :=
  let max_risk : Int := (questions.map (·.weight)).sum
  let st := questions.foldl (scoreStep answers) ⟨0, [], []⟩
  let risk_percentage : ℚ :=
    if max_risk = 0 then 0 else ((st.risk_points : ℚ) / (max_risk : ℚ)) * 100
  let security_score : ℚ := 100 - risk_percentage
  let risk_level := riskLevelOf security_score
  let summary : Summary :=
    { risk_points := st.risk_points
      max_risk := max_risk
      risk_percentage := risk_percentage
      security_score := security_score
      risk_level := risk_level }
  let pillar_scores : List (String × ℚ) :=
    st.pillar_max.map (pillarScoreFn st.pillar_risk)
  (summary, pillar_scores)

/-- The static id → recommendation-text dict of `logic.py` lines 100-121. -/
def recommendation_map : List (String × String) :=
  [ ("Q1", "Create and keep an up-to-date list of all company devices (laptops, phones, servers, tablets) and review it regularly."),
    ("Q2", "Define an approved software list and uninstall or block software that is not needed or not approved."),
    ("Q3", "Identify where sensitive data is stored, label it (e.g. confidential), and limit where it is copied or shared."),
    ("Q4", "Enable multi-factor authentication (MFA) for all remote access, email accounts and key business systems."),
    ("Q5", "Change all default passwords on devices, routers and systems, and require strong unique passwords."),
    ("Q6", "Configure computers and mobile devices to automatically lock after a short period of inactivity (5–10 minutes)."),
    ("Q7", "Limit admin accounts to a small number of trusted users and use standard accounts for day-to-day work."),
    ("Q8", "Ensure device firewalls are turned on and use a router or gateway with a firewall for your business network."),
    ("Q9", "Turn on automatic updates for operating systems and key software, and apply critical patches promptly."),
    ("Q10", "Install reputable antivirus or endpoint protection on all devices and make sure it is kept up to date."),
    ("Q11", "Enable full-disk encryption on laptops and mobile devices (e.g. BitLocker, FileVault) to protect lost or stolen devices."),
    ("Q12", "Create a separate guest Wi-Fi network that only provides internet access and cannot reach your business systems."),
    ("Q13", "Write a simple incident response plan describing who to contact and what steps to follow if an incident occurs, and review it yearly."),
    ("Q14", "Maintain an up-to-date list of emergency contacts (IT support, cloud providers, bank, legal/cyber support) and keep it easily accessible."),
    ("Q15", "Set up automatic weekly (or more frequent) backups of important business data to a secure, offsite or cloud location."),
    ("Q16", "Regularly test restoring files from your backups and document the steps so you know recovery will work in an emergency."),
    ("Q17", "Provide basic cybersecurity awareness training for all staff at induction and at least once per year, and record attendance."),
    ("Q18", "Create an offboarding checklist to immediately remove system, email and remote access when someone leaves the business."),
    ("Q19", "Assess third-party vendors for basic security (e.g. encryption, access controls, incident handling) before sharing sensitive data."),
    ("Q20", "Document how you will detect, assess and respond to privacy or data breaches in line with Australian privacy obligations.") ]

/-- One iteration of the loop at `logic.py` lines 123-131.  Python's
`if rec_text and rec_text not in recs` treats both a missing entry (`None`)
and the empty string as falsy, hence the `t ≠ ""` test. -/
def recStep (answers : Answers) (recs : List String) (q : Question) : List String :=
  let good_answer := goodAnswerOf q
  match alookup answers q.id with
  | some a =>
    if a ≠ good_answer then
      match alookup recommendation_map q.id with
      | some t => if t ≠ "" ∧ t ∉ recs then recs ++ [t] else recs
      | none => recs
    else recs
  | none => recs

/-- `generate_recommendations` (`logic.py` lines 92-133). -/
def generate_recommendations (questions : List Question) (answers : Answers) :
    List String :=
  questions.foldl (recStep answers) []

/-!
## Raw-record layer

The Python functions receive plain dicts, so a record can be missing any key;
`q["weight"]`, `q["pillar"]`, `q["id"]` then raise `KeyError`.  `QRecord`
models such a raw dict (each field optional) and the `…E` functions mirror the
same code over `Except`, raising at exactly the access points the Python code
reads the keys (line 37 for the `max_risk` sum; lines 44, 45, 47 and 124
inside the loops).  `PyError.configurationError` is the structural-validation
error kind the spec's contract (§4.1/§7) demands; the code itself never
produces it, which is what the analysis of that contract establishes. -/

inductive PyError where
  | keyError (field : String)
  | configurationError
deriving Repr, DecidableEq

/-- A question dict as loaded from JSON: any key may be absent. -/
structure QRecord where
  id? : Option String
  pillar? : Option String
  weight? : Option Int
  good_answer? : Option String
deriving Repr, DecidableEq

/-- Python `q[field]`: raises `KeyError(field)` when the key is absent. -/
def getKey {α : Type} (o : Option α) (field : String) : Except PyError α :=
  match o with
  | some v => Except.ok v
  | none => Except.error (PyError.keyError field)

/-- `sum(q["weight"] for q in questions)` (`logic.py` line 37) over raw
records: the first record missing `weight` raises. -/
def sumWeightsE : List QRecord → Except PyError Int
  | [] => Except.ok 0
  | q :: qs => do
    let w ← getKey q.weight? "weight"
    let s ← sumWeightsE qs
    return w + s

/-- One iteration of the loop at lines 43-55 over a raw record, reading the
keys in source order: `pillar`, `weight`, `good_answer` (defaulted), `id`. -/
def scoreStepE (answers : Answers) (st : ScoreState) (q : QRecord) :
    Except PyError ScoreState := do
  let pillar ← getKey q.pillar? "pillar"
  let weight ← getKey q.weight? "weight"
  let good_answer := q.good_answer?.getD "yes"
  let qid ← getKey q.id? "id"
  let user_answer := alookup answers qid
  let pillar_max := dictInsert st.pillar_max pillar (dictGetD st.pillar_max pillar 0 + weight)
  match user_answer with
  | some a =>
    if a ≠ good_answer then
      return { risk_points := st.risk_points + weight
               pillar_max := pillar_max
               pillar_risk := dictInsert st.pillar_risk pillar (dictGetD st.pillar_risk pillar 0 + weight) }
    else
      return { risk_points := st.risk_points
               pillar_max := pillar_max
               pillar_risk := dictSetdefault st.pillar_risk pillar 0 }
  | none =>
    return { risk_points := st.risk_points
             pillar_max := pillar_max
             pillar_risk := dictSetdefault st.pillar_risk pillar 0 }

/-- The scoring loop over raw records. -/
def scoreLoopE (answers : Answers) : ScoreState → List QRecord → Except PyError ScoreState
  | st, [] => Except.ok st
  | st, q :: qs => do
    let st' ← scoreStepE answers st q
    scoreLoopE answers st' qs

/-- `calculate_scores` over raw records, with Python's `KeyError` behavior. -/
def calculate_scoresE (questions : List QRecord) (answers : Answers) :
    Except PyError (Summary × List (String × ℚ)) := do
  let max_risk ← sumWeightsE questions
  let st ← scoreLoopE answers ⟨0, [], []⟩ questions
  let risk_percentage : ℚ :=
    if max_risk = 0 then 0 else ((st.risk_points : ℚ) / (max_risk : ℚ)) * 100
  let security_score : ℚ := 100 - risk_percentage
  return ({ risk_points := st.risk_points
            max_risk := max_risk
            risk_percentage := risk_percentage
            security_score := security_score
            risk_level := riskLevelOf security_score },
          st.pillar_max.map (pillarScoreFn st.pillar_risk))

/-- One iteration of the loop at lines 123-131 over a raw record (only the
`id` key is a raw access there; `good_answer` uses `.get`). -/
def recStepE (answers : Answers) (recs : List String) (q : QRecord) :
    Except PyError (List String) := do
  let qid ← getKey q.id? "id"
  let good_answer := q.good_answer?.getD "yes"
  match alookup answers qid with
  | some a =>
    if a ≠ good_answer then
      match alookup recommendation_map qid with
      | some t => return (if t ≠ "" ∧ t ∉ recs then recs ++ [t] else recs)
      | none => return recs
    else return recs
  | none => return recs

/-- The recommendation loop over raw records. -/
def recLoopE (answers : Answers) : List String → List QRecord → Except PyError (List String)
  | recs, [] => Except.ok recs
  | recs, q :: qs => do
    let recs' ← recStepE answers recs q
    recLoopE answers recs' qs

/-- `generate_recommendations` over raw records. -/
def generate_recommendationsE (questions : List QRecord) (answers : Answers) :
    Except PyError (List String) :=
  recLoopE answers [] questions

/-- View a well-formed question as a raw record (all required keys present). -/
def Question.toRecord (q : Question) : QRecord :=
  { id? := some q.id, pillar? := some q.pillar, weight? := some q.weight,
    good_answer? := q.good_answer? }

/-- Structural validity of one record, per the spec's ConfigurationError
taxonomy (§7): `id`, `pillar`, `weight` present and `good_answer`, when
present, in {"yes", "no"}. -/
def validRecord (q : QRecord) : Prop :=
  q.id?.isSome ∧ q.pillar?.isSome ∧ q.weight?.isSome ∧
    (q.good_answer? = none ∨ q.good_answer? = some "yes" ∨ q.good_answer? = some "no")

instance : DecidablePred validRecord := fun q => by
  unfold validRecord; infer_instance

/-- Structural validity of a catalog, per the spec (§7): every record valid
and ids pairwise distinct. -/
def structurallyValid (qs : List QRecord) : Prop :=
  (∀ q ∈ qs, validRecord q) ∧ (qs.filterMap (·.id?)).Nodup

instance : DecidablePred structurallyValid := fun qs => by
  unfold structurallyValid; infer_instance

/-!
## Specification-side descriptions

These definitions restate, in direct form, what the spec says a question
contributes; the theorems below compare the code's folds against them. -/

/-- The condition of `logic.py` line 51: an answer exists for the question
and differs from its good answer. -/
def isBadAnswer (answers : Answers) (q : Question) : Bool :=
  match alookup answers q.id with
  | some a => a ≠ goodAnswerOf q
  | none => false

/-- The risk a single question contributes: its weight when answered badly,
zero otherwise (in particular zero when unanswered). -/
def riskContrib (answers : Answers) (q : Question) : Int :=
  if isBadAnswer answers q then q.weight else 0

/-- Total weight of the questions of pillar `p`. -/
def pillarWeight (qs : List Question) (p : String) : Int :=
  ((qs.filter (fun q => q.pillar = p)).map (·.weight)).sum

/-- Total risk contributed by the questions of pillar `p`. -/
def pillarRiskSum (answers : Answers) (qs : List Question) (p : String) : Int :=
  ((qs.filter (fun q => q.pillar = p)).map (riskContrib answers)).sum

/-- The elements of `l` not in `seen`, first occurrences only, in order:
the insertion order a Python dict's keys take. -/
def newKeys (seen : List String) : List String → List String
  | [] => []
  | p :: ps => if p ∈ seen then newKeys seen ps else p :: newKeys (p :: seen) ps

/-- The recommendation texts of the badly-answered questions, in catalog
order, before de-duplication: what the spec says `generate_recommendations`
de-duplicates. -/
def recCandidates (ans : Answers) (qs : List Question) : List String :=
  (qs.filter (fun q => isBadAnswer ans q)).filterMap (fun q => alookup recommendation_map q.id)

/-!
## Dictionary lemmas
-/

lemma alookup_dictInsert {α : Type} (d : List (String × α)) (k k0 : String) (v : α) :
    alookup (dictInsert d k v) k0 = if k0 = k then some v else alookup d k0 := by
  induction d with
  | nil => simp [dictInsert, alookup]
  | cons hd tl ih =>
    obtain ⟨k1, v1⟩ := hd
    by_cases h1 : k1 = k
    · subst h1
      by_cases h0 : k0 = k1 <;> simp [dictInsert, alookup, h0]
    · by_cases h0 : k0 = k1 <;>
        simp [dictInsert, alookup, h0, h1, ih, Ne.symm h1]

lemma alookup_append_left {α : Type} {d1 : List (String × α)} {k : String} {v : α}
    (h : alookup d1 k = some v) (d2 : List (String × α)) :
    alookup (d1 ++ d2) k = some v := by
  induction d1 with
  | nil => simp [alookup] at h
  | cons hd tl ih =>
    obtain ⟨k1, v1⟩ := hd
    by_cases h0 : k = k1 <;> simp_all [alookup, h0]

lemma alookup_append_right {α : Type} {d1 : List (String × α)} {k : String}
    (h : alookup d1 k = none) (d2 : List (String × α)) :
    alookup (d1 ++ d2) k = alookup d2 k := by
  induction d1 with
  | nil => simp
  | cons hd tl ih =>
    obtain ⟨k1, v1⟩ := hd
    by_cases h0 : k = k1 <;> simp_all [alookup, h0]

lemma alookup_isSome_iff {α : Type} (d : List (String × α)) (k : String) :
    (alookup d k).isSome ↔ k ∈ d.map Prod.fst := by
  induction d with
  | nil => simp [alookup]
  | cons hd tl ih =>
    obtain ⟨k1, v1⟩ := hd
    by_cases h0 : k = k1 <;> simp [alookup, h0, ih]

lemma dictGetD_dictSetdefault_zero (d : List (String × Int)) (k p : String) :
    dictGetD (dictSetdefault d k 0) p 0 = dictGetD d p 0 := by
  unfold dictSetdefault
  split
  · rfl
  · cases hp : alookup d p with
    | some v => rw [dictGetD, alookup_append_left hp, dictGetD, hp]
    | none =>
      rw [dictGetD, alookup_append_right hp, dictGetD, hp]
      by_cases h0 : p = k <;> simp [alookup, h0]

lemma keys_dictInsert {α : Type} (d : List (String × α)) (k : String) (v : α) :
    (dictInsert d k v).map Prod.fst =
      if k ∈ d.map Prod.fst then d.map Prod.fst else d.map Prod.fst ++ [k] := by
  induction d with
  | nil => simp [dictInsert]
  | cons hd tl ih =>
    obtain ⟨k1, v1⟩ := hd
    by_cases h1 : k1 = k
    · subst h1; simp [dictInsert]
    · simp only [dictInsert, h1, if_false, List.map_cons, ih]
      by_cases hk : k ∈ tl.map Prod.fst <;> simp [hk, Ne.symm h1, h1]

lemma keys_dictSetdefault {α : Type} (d : List (String × α)) (k : String) (v : α) :
    (dictSetdefault d k v).map Prod.fst =
      if k ∈ d.map Prod.fst then d.map Prod.fst else d.map Prod.fst ++ [k] := by
  unfold dictSetdefault
  by_cases hk : k ∈ d.map Prod.fst
  · rw [if_pos ((alookup_isSome_iff d k).mpr hk), if_pos hk]
  · rw [if_neg (fun hs => hk ((alookup_isSome_iff d k).mp hs)), if_neg hk]
    simp

lemma alookup_map_value {α β : Type} (d : List (String × α)) (g : String → α → β) (p : String) :
    alookup (d.map (fun pm => (pm.1, g pm.1 pm.2))) p = (alookup d p).map (g p) := by
  induction d with
  | nil => simp [alookup]
  | cons hd tl ih =>
    obtain ⟨k1, v1⟩ := hd
    by_cases h0 : p = k1 <;> simp [alookup, h0, ih]

lemma dictGetD_dictInsert (d : List (String × Int)) (k p : String) (v : Int) :
    dictGetD (dictInsert d k v) p 0 = if p = k then v else dictGetD d p 0 := by
  rw [dictGetD, alookup_dictInsert]
  by_cases hp : p = k <;> simp [hp, dictGetD]

/-!
## Characterizing the scoring loop
-/

lemma scoreStep_risk_points (ans : Answers) (st : ScoreState) (q : Question) :
    (scoreStep ans st q).risk_points = st.risk_points + riskContrib ans q := by
  unfold scoreStep riskContrib isBadAnswer
  cases h : alookup ans q.id with
  | none => simp [h]
  | some a => by_cases hg : a = goodAnswerOf q <;> simp [h, hg]

lemma scoreStep_pillar_max (ans : Answers) (st : ScoreState) (q : Question) :
    (scoreStep ans st q).pillar_max =
      dictInsert st.pillar_max q.pillar (dictGetD st.pillar_max q.pillar 0 + q.weight) := by
  unfold scoreStep
  cases h : alookup ans q.id with
  | none => simp [h]
  | some a => by_cases hg : a = goodAnswerOf q <;> simp [h, hg]

lemma scoreStep_pillar_risk_getD (ans : Answers) (st : ScoreState) (q : Question) (p : String) :
    dictGetD (scoreStep ans st q).pillar_risk p 0 =
      dictGetD st.pillar_risk p 0 + (if q.pillar = p then riskContrib ans q else 0) := by
  unfold scoreStep riskContrib isBadAnswer
  cases h : alookup ans q.id with
  | none => simp [h, dictGetD_dictSetdefault_zero]
  | some a =>
    by_cases hg : a = goodAnswerOf q
    · simp [h, hg, dictGetD_dictSetdefault_zero]
    · simp only [h, hg, ne_eq, not_false_eq_true, if_true, decide_not, decide_eq_true_eq,
        if_neg, dictGetD_dictInsert]
      by_cases hp : p = q.pillar
      · simp [hp]
      · have hqp : ¬(q.pillar = p) := fun h => hp h.symm
        simp [hp, hqp]

lemma scoreStep_pillar_max_getD (ans : Answers) (st : ScoreState) (q : Question) (p : String) :
    dictGetD (scoreStep ans st q).pillar_max p 0 =
      dictGetD st.pillar_max p 0 + (if q.pillar = p then q.weight else 0) := by
  rw [scoreStep_pillar_max, dictGetD_dictInsert]
  by_cases hp : p = q.pillar
  · simp [hp]
  · have hqp : ¬(q.pillar = p) := fun h => hp h.symm
    simp [hp, hqp]

lemma pillarWeight_cons (q : Question) (qs : List Question) (p : String) :
    pillarWeight (q :: qs) p = (if q.pillar = p then q.weight else 0) + pillarWeight qs p := by
  unfold pillarWeight
  by_cases hp : q.pillar = p <;> simp [hp, List.filter_cons]

lemma pillarRiskSum_cons (ans : Answers) (q : Question) (qs : List Question) (p : String) :
    pillarRiskSum ans (q :: qs) p =
      (if q.pillar = p then riskContrib ans q else 0) + pillarRiskSum ans qs p := by
  unfold pillarRiskSum
  by_cases hp : q.pillar = p <;> simp [hp, List.filter_cons]

lemma foldl_score_risk_points (ans : Answers) (qs : List Question) :
    ∀ st : ScoreState,
      (qs.foldl (scoreStep ans) st).risk_points =
        st.risk_points + (qs.map (riskContrib ans)).sum := by
  induction qs with
  | nil => simp
  | cons q qs ih =>
    intro st
    simp only [List.foldl_cons, List.map_cons, List.sum_cons]
    rw [ih, scoreStep_risk_points]
    ring

lemma foldl_score_pillar_max_getD (ans : Answers) (qs : List Question) :
    ∀ (st : ScoreState) (p : String),
      dictGetD (qs.foldl (scoreStep ans) st).pillar_max p 0 =
        dictGetD st.pillar_max p 0 + pillarWeight qs p := by
  induction qs with
  | nil => intro st p; simp [pillarWeight]
  | cons q qs ih =>
    intro st p
    simp only [List.foldl_cons]
    rw [ih, scoreStep_pillar_max_getD, pillarWeight_cons]
    ring

lemma foldl_score_pillar_risk_getD (ans : Answers) (qs : List Question) :
    ∀ (st : ScoreState) (p : String),
      dictGetD (qs.foldl (scoreStep ans) st).pillar_risk p 0 =
        dictGetD st.pillar_risk p 0 + pillarRiskSum ans qs p := by
  induction qs with
  | nil => intro st p; simp [pillarRiskSum]
  | cons q qs ih =>
    intro st p
    simp only [List.foldl_cons]
    rw [ih, scoreStep_pillar_risk_getD, pillarRiskSum_cons]
    ring

lemma newKeys_congr (l : List String) :
    ∀ s s' : List String, (∀ x, x ∈ s ↔ x ∈ s') → newKeys s l = newKeys s' l := by
  induction l with
  | nil => intro s s' _; rfl
  | cons p ps ih =>
    intro s s' hss
    unfold newKeys
    by_cases hp : p ∈ s
    · rw [if_pos hp, if_pos ((hss p).mp hp), ih _ _ hss]
    · rw [if_neg hp, if_neg (fun h => hp ((hss p).mpr h))]
      congr 1
      apply ih
      intro x
      simp [hss x]

lemma newKeys_cons (seen : List String) (p : String) (ps : List String) :
    newKeys seen (p :: ps) =
      if p ∈ seen then newKeys seen ps else p :: newKeys (p :: seen) ps := rfl

lemma foldl_score_pillar_max_keys (ans : Answers) (qs : List Question) :
    ∀ st : ScoreState,
      (qs.foldl (scoreStep ans) st).pillar_max.map Prod.fst =
        st.pillar_max.map Prod.fst ++
          newKeys (st.pillar_max.map Prod.fst) (qs.map (·.pillar)) := by
  induction qs with
  | nil => intro st; simp [newKeys]
  | cons q qs ih =>
    intro st
    simp only [List.foldl_cons, List.map_cons]
    rw [ih, newKeys_cons, scoreStep_pillar_max, keys_dictInsert]
    by_cases hp : q.pillar ∈ st.pillar_max.map Prod.fst
    · simp [hp]
    · have hcong := newKeys_congr (qs.map (·.pillar))
        (st.pillar_max.map Prod.fst ++ [q.pillar]) (q.pillar :: st.pillar_max.map Prod.fst)
        (by intro x; simp [or_comm])
      simp [hp, hcong]

/-!
## Characterizing the recommendation loop
-/

lemma alookup_some_mem {α : Type} :
    ∀ (d : List (String × α)) (k : String) (v : α),
      alookup d k = some v → v ∈ d.map Prod.snd := by
  intro d
  induction d with
  | nil => intro k v h; simp [alookup] at h
  | cons hd tl ih =>
    intro k v h
    obtain ⟨k1, v1⟩ := hd
    by_cases h0 : k = k1
    · simp [alookup, h0] at h
      simp [h]
    · simp only [alookup, h0, if_neg] at h
      simp [ih k v h]

lemma recommendation_texts_nonempty : ∀ t ∈ recommendation_map.map Prod.snd, t ≠ "" := by
  decide

lemma recStep_not_bad (ans : Answers) (recs : List String) (q : Question)
    (hb : ¬isBadAnswer ans q) : recStep ans recs q = recs := by
  unfold recStep
  unfold isBadAnswer at hb
  cases h : alookup ans q.id with
  | none => simp [h]
  | some a =>
    rw [h] at hb
    simp only [decide_eq_true_eq] at hb
    simp [h, hb]

lemma recStep_bad_none (ans : Answers) (recs : List String) (q : Question)
    (hb : isBadAnswer ans q) (ht : alookup recommendation_map q.id = none) :
    recStep ans recs q = recs := by
  unfold recStep
  unfold isBadAnswer at hb
  cases h : alookup ans q.id with
  | none => simp [h] at hb
  | some a =>
    rw [h] at hb
    simp only [decide_eq_true_eq] at hb
    simp [h, hb, ht]

lemma recStep_bad_some_mem (ans : Answers) (recs : List String) (q : Question) (t : String)
    (hb : isBadAnswer ans q) (ht : alookup recommendation_map q.id = some t)
    (hmem : t ∈ recs) : recStep ans recs q = recs := by
  unfold recStep
  unfold isBadAnswer at hb
  cases h : alookup ans q.id with
  | none => simp [h] at hb
  | some a =>
    rw [h] at hb
    simp only [decide_eq_true_eq] at hb
    simp [h, hb, ht, hmem]

lemma recStep_bad_some_new (ans : Answers) (recs : List String) (q : Question) (t : String)
    (hb : isBadAnswer ans q) (ht : alookup recommendation_map q.id = some t)
    (hmem : t ∉ recs) : recStep ans recs q = recs ++ [t] := by
  have hne := recommendation_texts_nonempty t (alookup_some_mem _ _ _ ht)
  unfold recStep
  unfold isBadAnswer at hb
  cases h : alookup ans q.id with
  | none => simp [h] at hb
  | some a =>
    rw [h] at hb
    simp only [decide_eq_true_eq] at hb
    simp [h, hb, ht, hmem, hne]

lemma recCandidates_cons (ans : Answers) (q : Question) (qs : List Question) :
    recCandidates ans (q :: qs) =
      (if isBadAnswer ans q then (alookup recommendation_map q.id).toList else []) ++
        recCandidates ans qs := by
  unfold recCandidates
  by_cases hb : isBadAnswer ans q
  · cases ht : alookup recommendation_map q.id <;>
      simp [List.filter_cons, hb, List.filterMap_cons, ht]
  · simp [List.filter_cons, hb]

lemma foldl_rec (ans : Answers) (qs : List Question) :
    ∀ recs : List String,
      qs.foldl (recStep ans) recs = recs ++ newKeys recs (recCandidates ans qs) := by
  induction qs with
  | nil => intro recs; simp [recCandidates, newKeys]
  | cons q qs ih =>
    intro recs
    simp only [List.foldl_cons]
    rw [recCandidates_cons]
    by_cases hb : isBadAnswer ans q
    · cases ht : alookup recommendation_map q.id with
      | none =>
        rw [recStep_bad_none ans recs q hb ht, ih]
        simp [hb, ht]
      | some t =>
        by_cases hmem : t ∈ recs
        · rw [recStep_bad_some_mem ans recs q t hb ht hmem, ih]
          simp [hb, newKeys_cons, hmem]
        · have hcong := newKeys_congr (recCandidates ans qs) (recs ++ [t]) (t :: recs)
            (by intro x; simp [or_comm])
          rw [recStep_bad_some_new ans recs q t hb ht hmem, ih, hcong]
          simp [hb, newKeys_cons, hmem]
    · rw [recStep_not_bad ans recs q hb, ih]
      simp [hb]

lemma mem_newKeys (l : List String) :
    ∀ (seen : List String) (x : String), x ∈ newKeys seen l ↔ x ∈ l ∧ x ∉ seen := by
  induction l with
  | nil => intro seen x; simp [newKeys]
  | cons p ps ih =>
    intro seen x
    rw [newKeys_cons]
    by_cases hp : p ∈ seen
    · rw [if_pos hp, ih]
      constructor
      · rintro ⟨h1, h2⟩; exact ⟨List.mem_cons_of_mem p h1, h2⟩
      · rintro ⟨h1, h2⟩
        rcases List.mem_cons.mp h1 with h | h
        · exact absurd (h ▸ hp) h2
        · exact ⟨h, h2⟩
    · rw [if_neg hp]
      simp only [List.mem_cons, ih]
      constructor
      · rintro (h | ⟨h1, h2⟩)
        · exact ⟨Or.inl h, h ▸ hp⟩
        · exact ⟨Or.inr h1, fun hs => h2 (Or.inr hs)⟩
      · rintro ⟨h1, h2⟩
        rcases h1 with h | h
        · exact Or.inl h
        · by_cases hxp : x = p
          · exact Or.inl hxp
          · exact Or.inr ⟨h, fun hs => hs.elim hxp h2⟩

lemma newKeys_nodup (l : List String) :
    ∀ seen : List String, (newKeys seen l).Nodup := by
  induction l with
  | nil => intro seen; simp [newKeys]
  | cons p ps ih =>
    intro seen
    rw [newKeys_cons]
    by_cases hp : p ∈ seen
    · rw [if_pos hp]; exact ih seen
    · rw [if_neg hp]
      refine List.nodup_cons.mpr ⟨?_, ih (p :: seen)⟩
      intro hmem
      exact ((mem_newKeys ps (p :: seen) p).mp hmem).2 (List.mem_cons_self p seen)

/-!
## Summary-level lemmas
-/

lemma calc_risk_points (qs : List Question) (ans : Answers) :
    (calculate_scores qs ans).1.risk_points = (qs.map (riskContrib ans)).sum := by
  show (qs.foldl (scoreStep ans) ⟨0, [], []⟩).risk_points = _
  rw [foldl_score_risk_points]
  simp

lemma riskContrib_nonneg (ans : Answers) (q : Question) (h : 0 ≤ q.weight) :
    0 ≤ riskContrib ans q := by
  unfold riskContrib; split <;> simp [h]

lemma riskContrib_le_weight (ans : Answers) (q : Question) (h : 0 ≤ q.weight) :
    riskContrib ans q ≤ q.weight := by
  unfold riskContrib; split <;> simp [h]

lemma risk_points_between (qs : List Question) (ans : Answers)
    (hw : ∀ q ∈ qs, 0 ≤ q.weight) :
    0 ≤ (qs.map (riskContrib ans)).sum ∧
      (qs.map (riskContrib ans)).sum ≤ (qs.map (·.weight)).sum := by
  constructor
  · apply List.sum_nonneg
    intro x hx
    obtain ⟨q, hq, rfl⟩ := List.mem_map.mp hx
    exact riskContrib_nonneg ans q (hw q hq)
  · apply List.sum_le_sum
    intro q hq
    exact riskContrib_le_weight ans q (hw q hq)

lemma pct_bounds (rp mr : Int) (h0 : 0 ≤ rp) (hle : rp ≤ mr) :
    0 ≤ (if mr = 0 then (0:ℚ) else ((rp : ℚ) / (mr : ℚ)) * 100) ∧
      (if mr = 0 then (0:ℚ) else ((rp : ℚ) / (mr : ℚ)) * 100) ≤ 100 := by
  by_cases hz : mr = 0
  · simp [hz]
  · rw [if_neg hz]
    have hmr : (0:ℚ) < (mr:ℚ) := by
      have h1 : 0 < mr := lt_of_le_of_ne (le_trans h0 hle) (Ne.symm hz)
      exact_mod_cast h1
    have hrpq : (0:ℚ) ≤ (rp:ℚ) := by exact_mod_cast h0
    have hdiv0 : (0:ℚ) ≤ (rp:ℚ) / (mr:ℚ) := div_nonneg hrpq (le_of_lt hmr)
    have hdiv1 : (rp:ℚ) / (mr:ℚ) ≤ 1 := (div_le_one hmr).mpr (by exact_mod_cast hle)
    constructor
    · linarith
    · linarith

lemma riskLevelOf_iff (x : ℚ) :
    (riskLevelOf x = "LOW" ↔ 80 ≤ x) ∧
    (riskLevelOf x = "MEDIUM" ↔ 50 ≤ x ∧ x < 80) ∧
    (riskLevelOf x = "HIGH" ↔ x < 50) := by
  unfold riskLevelOf
  by_cases h80 : x ≥ 80
  · rw [if_pos h80]
    refine ⟨⟨fun _ => h80, fun _ => rfl⟩,
      ⟨fun h => absurd h (by decide), fun hm => absurd h80 (not_le.mpr hm.2)⟩,
      ⟨fun h => absurd h (by decide),
       fun hlt => absurd h80 (not_le.mpr (lt_of_lt_of_le hlt (by norm_num)))⟩⟩
  · rw [if_neg h80]
    by_cases h50 : x ≥ 50
    · rw [if_pos h50]
      refine ⟨⟨fun h => absurd h (by decide), fun h => absurd h h80⟩,
        ⟨fun _ => ⟨h50, not_le.mp h80⟩, fun _ => rfl⟩,
        ⟨fun h => absurd h (by decide), fun hlt => absurd h50 (not_le.mpr hlt)⟩⟩
    · rw [if_neg h50]
      refine ⟨⟨fun h => absurd h (by decide), fun h => absurd h h80⟩,
        ⟨fun h => absurd h (by decide), fun hm => absurd hm.1 h50⟩,
        ⟨fun _ => not_le.mp h50, fun _ => rfl⟩⟩

/-!
## The claims
-/

/-- C1: for every catalog with non-negative weights and every answers
mapping, `security_score + risk_percentage = 100` and the security score
lies in [0, 100]. -/
theorem claim_C1_score_complement_and_bounds (qs : List Question) (ans : Answers)
    (hw : ∀ q ∈ qs, 0 ≤ q.weight) :
    (calculate_scores qs ans).1.security_score +
        (calculate_scores qs ans).1.risk_percentage = 100 ∧
      0 ≤ (calculate_scores qs ans).1.security_score ∧
      (calculate_scores qs ans).1.security_score ≤ 100 := by
  have hb := risk_points_between qs ans hw
  have hpb := pct_bounds ((qs.map (riskContrib ans)).sum) ((qs.map (·.weight)).sum) hb.1 hb.2
  have hpe : (calculate_scores qs ans).1.risk_percentage =
      if ((qs.map (·.weight)).sum : Int) = 0 then (0:ℚ)
      else ((((qs.map (riskContrib ans)).sum : Int) : ℚ) /
        (((qs.map (·.weight)).sum : Int) : ℚ)) * 100 := by
    rw [show (calculate_scores qs ans).1.risk_percentage =
        if ((qs.map (·.weight)).sum : Int) = 0 then (0:ℚ)
        else (((calculate_scores qs ans).1.risk_points : ℚ) /
          (((qs.map (·.weight)).sum : Int) : ℚ)) * 100 from rfl,
      calc_risk_points]
  have hse : (calculate_scores qs ans).1.security_score =
      100 - (calculate_scores qs ans).1.risk_percentage := rfl
  rw [hse, hpe]
  exact ⟨by ring, by linarith [hpb.1, hpb.2], by linarith [hpb.1, hpb.2]⟩

theorem claim_C1_witness :
    (calculate_scores [⟨"Q1", "Identify", 10, some "yes"⟩] [("Q1", "no")]).1.security_score +
        (calculate_scores [⟨"Q1", "Identify", 10, some "yes"⟩] [("Q1", "no")]).1.risk_percentage = 100 ∧
      0 ≤ (calculate_scores [⟨"Q1", "Identify", 10, some "yes"⟩] [("Q1", "no")]).1.security_score ∧
      (calculate_scores [⟨"Q1", "Identify", 10, some "yes"⟩] [("Q1", "no")]).1.security_score ≤ 100 :=
  claim_C1_score_complement_and_bounds _ _ (by decide)

/-- C2: the returned `risk_level` is "LOW" iff the security score is at least
80, "MEDIUM" iff it is in [50, 80), "HIGH" iff it is below 50; in particular
a score of exactly 80 gives "LOW" and exactly 50 gives "MEDIUM". -/
theorem claim_C2_risk_tiers (qs : List Question) (ans : Answers) :
    ((calculate_scores qs ans).1.risk_level = "LOW" ↔
        80 ≤ (calculate_scores qs ans).1.security_score) ∧
    ((calculate_scores qs ans).1.risk_level = "MEDIUM" ↔
        50 ≤ (calculate_scores qs ans).1.security_score ∧
          (calculate_scores qs ans).1.security_score < 80) ∧
    ((calculate_scores qs ans).1.risk_level = "HIGH" ↔
        (calculate_scores qs ans).1.security_score < 50) ∧
    ((calculate_scores qs ans).1.security_score = 80 →
        (calculate_scores qs ans).1.risk_level = "LOW") ∧
    ((calculate_scores qs ans).1.security_score = 50 →
        (calculate_scores qs ans).1.risk_level = "MEDIUM") := by
  have hrl : (calculate_scores qs ans).1.risk_level =
      riskLevelOf (calculate_scores qs ans).1.security_score := rfl
  obtain ⟨hL, hM, hH⟩ := riskLevelOf_iff (calculate_scores qs ans).1.security_score
  rw [hrl]
  refine ⟨hL, hM, hH, fun h => hL.mpr (by rw [h]), fun h => hM.mpr (by rw [h]; norm_num)⟩

theorem claim_C2_witness :
    (calculate_scores [⟨"A", "P", 4, none⟩, ⟨"B", "P", 1, none⟩] [("B", "no")]).1.risk_level
        = "LOW" ∧
      (calculate_scores [⟨"A", "P", 1, none⟩, ⟨"B", "P", 1, none⟩] [("B", "no")]).1.risk_level
        = "MEDIUM" :=
  ⟨(claim_C2_risk_tiers [⟨"A", "P", 4, none⟩, ⟨"B", "P", 1, none⟩] [("B", "no")]).2.2.2.1
      (by norm_num +decide [calculate_scores, scoreStep, alookup, dictGetD, dictInsert, dictSetdefault, goodAnswerOf]),
   (claim_C2_risk_tiers [⟨"A", "P", 1, none⟩, ⟨"B", "P", 1, none⟩] [("B", "no")]).2.2.2.2
      (by norm_num +decide [calculate_scores, scoreStep, alookup, dictGetD, dictInsert, dictSetdefault, goodAnswerOf])⟩

/-- C3: a question adds its weight to `risk_points` and to its pillar's risk
exactly when an answer exists for its id and differs from its good answer
(defaulting to "yes"); an unanswered question contributes zero. -/
theorem claim_C3_risk_contribution (qs : List Question) (ans : Answers) :
    (calculate_scores qs ans).1.risk_points = (qs.map (riskContrib ans)).sum ∧
    (∀ p : String,
      dictGetD (qs.foldl (scoreStep ans) ⟨0, [], []⟩).pillar_risk p 0 =
        pillarRiskSum ans qs p) ∧
    (∀ q : Question, alookup ans q.id = none → riskContrib ans q = 0) ∧
    (∀ (q : Question) (a : String), alookup ans q.id = some a →
      riskContrib ans q = if a ≠ goodAnswerOf q then q.weight else 0) := by
  refine ⟨calc_risk_points qs ans, ?_, ?_, ?_⟩
  · intro p
    rw [foldl_score_pillar_risk_getD]
    simp [dictGetD, alookup]
  · intro q h
    unfold riskContrib isBadAnswer
    simp [h]
  · intro q a h
    unfold riskContrib isBadAnswer
    rw [h]
    by_cases hg : a = goodAnswerOf q <;> simp [hg]

theorem claim_C3_witness :
    (calculate_scores [⟨"Q1", "P", 7, none⟩] []).1.risk_points =
        (([⟨"Q1", "P", 7, none⟩] : List Question).map (riskContrib [])).sum ∧
      riskContrib [] ⟨"Q1", "P", 7, none⟩ = 0 ∧
      riskContrib [("Q1", "no")] ⟨"Q1", "P", 7, none⟩ =
        if "no" ≠ goodAnswerOf ⟨"Q1", "P", 7, none⟩ then (7:Int) else 0 :=
  ⟨(claim_C3_risk_contribution [⟨"Q1", "P", 7, none⟩] []).1,
   (claim_C3_risk_contribution [⟨"Q1", "P", 7, none⟩] []).2.2.1 ⟨"Q1", "P", 7, none⟩ (by decide),
   (claim_C3_risk_contribution [⟨"Q1", "P", 7, none⟩] [("Q1", "no")]).2.2.2 ⟨"Q1", "P", 7, none⟩
     "no" (by decide)⟩

/-- C5: on the empty catalog, for every answers mapping, the summary is
`max_risk = 0`, `risk_percentage = 0`, `security_score = 100`,
`risk_level = "LOW"`, and the pillar-score mapping is empty. -/
theorem claim_C5_empty_catalog (ans : Answers) :
    calculate_scores [] ans =
      ({ risk_points := 0, max_risk := 0, risk_percentage := 0,
         security_score := 100, risk_level := "LOW" }, []) := by
  norm_num [calculate_scores, riskLevelOf]

/-- C10: an answer outside {"yes", "no"} (here "maybe") that differs from the
good answer is counted as unsafe: the full weight is added to `risk_points`
and the question's recommendation is emitted. -/
theorem claim_C10_non_yes_no_answer_counts :
    ("maybe" ≠ "yes" ∧ "maybe" ≠ "no") ∧
    (calculate_scores [⟨"Q1", "Protect", 5, none⟩] [("Q1", "maybe")]).1.risk_points = 5 ∧
    generate_recommendations [⟨"Q1", "Protect", 5, none⟩] [("Q1", "maybe")] =
      ["Create and keep an up-to-date list of all company devices (laptops, phones, servers, tablets) and review it regularly."] :=
  ⟨by decide, by decide, by decide⟩

/-!
## Pillar-score lookup lemmas and C6
-/

lemma fst_pillarScoreFn (pr : List (String × Int)) (pm : String × Int) :
    (pillarScoreFn pr pm).1 = pm.1 := by
  unfold pillarScoreFn
  split <;> rfl

lemma keys_map_pillarScoreFn (pr d : List (String × Int)) :
    (d.map (pillarScoreFn pr)).map Prod.fst = d.map Prod.fst := by
  rw [List.map_map]
  apply List.map_congr_left
  intro pm _
  exact fst_pillarScoreFn pr pm

lemma alookup_cons_any {α : Type} (x : String × α) (d : List (String × α)) (p : String) :
    alookup (x :: d) p = if p = x.1 then some x.2 else alookup d p := rfl

lemma alookup_map_pillarScoreFn (pr : List (String × Int)) (d : List (String × Int))
    (p : String) :
    alookup (d.map (pillarScoreFn pr)) p =
      (alookup d p).map (fun w : Int => if w = 0 then (100:ℚ)
        else 100 - (((dictGetD pr p 0 : Int) : ℚ) / (w : ℚ)) * 100) := by
  induction d with
  | nil => simp [alookup]
  | cons hd tl ih =>
    rw [List.map_cons, alookup_cons_any, alookup_cons_any, fst_pillarScoreFn]
    by_cases h0 : p = hd.1
    · rw [if_pos h0, if_pos h0]
      unfold pillarScoreFn
      by_cases hv : hd.2 = 0 <;> simp [hv, h0]
    · rw [if_neg h0, if_neg h0, ih]

/-- C6: the pillar-scores mapping has exactly the distinct pillars of the
catalog as keys, in first-appearance order, and each pillar's score is 100
when its weights sum to zero and `100 - (pillar_risk / pillar_max) * 100`
otherwise. -/
theorem claim_C6_pillar_scores (qs : List Question) (ans : Answers) :
    ((calculate_scores qs ans).2.map Prod.fst = newKeys [] (qs.map (·.pillar))) ∧
    ((calculate_scores qs ans).2.map Prod.fst).Nodup ∧
    (∀ p, p ∈ qs.map (·.pillar) →
      alookup (calculate_scores qs ans).2 p =
        some (if pillarWeight qs p = 0 then (100:ℚ)
          else 100 - (((pillarRiskSum ans qs p : Int) : ℚ) /
            ((pillarWeight qs p : Int) : ℚ)) * 100)) := by
  have hps : (calculate_scores qs ans).2 =
      (qs.foldl (scoreStep ans) ⟨0, [], []⟩).pillar_max.map
        (pillarScoreFn (qs.foldl (scoreStep ans) ⟨0, [], []⟩).pillar_risk) := rfl
  have hkeys : (calculate_scores qs ans).2.map Prod.fst = newKeys [] (qs.map (·.pillar)) := by
    rw [hps, keys_map_pillarScoreFn, foldl_score_pillar_max_keys]
    simp
  refine ⟨hkeys, by rw [hkeys]; exact newKeys_nodup _ [], ?_⟩
  intro p hp
  have hmem : p ∈ (calculate_scores qs ans).2.map Prod.fst := by
    rw [hkeys, mem_newKeys]
    exact ⟨hp, by simp⟩
  have hmem2 : p ∈ (qs.foldl (scoreStep ans) ⟨0, [], []⟩).pillar_max.map Prod.fst := by
    rw [hps, keys_map_pillarScoreFn] at hmem
    exact hmem
  obtain ⟨w, hw⟩ := Option.isSome_iff_exists.mp
    ((alookup_isSome_iff _ p).mpr hmem2)
  have hwval : w = pillarWeight qs p := by
    have hgd := foldl_score_pillar_max_getD ans qs ⟨0, [], []⟩ p
    rw [dictGetD, hw] at hgd
    simpa [dictGetD, alookup] using hgd
  have hrisk : dictGetD (qs.foldl (scoreStep ans) ⟨0, [], []⟩).pillar_risk p 0 =
      pillarRiskSum ans qs p := by
    have hgd := foldl_score_pillar_risk_getD ans qs ⟨0, [], []⟩ p
    simpa [dictGetD, alookup] using hgd
  rw [hps, alookup_map_pillarScoreFn, hw, hrisk, hwval]
  rfl

/-- C7: the recommendation list is exactly the catalog-ordered texts of the
badly-answered questions that have a mapped text, de-duplicated keeping the
first occurrence; a question whose id has no mapped text is skipped, and a
text is in the output iff some badly-answered question maps to it. -/
theorem claim_C7_recommendations (qs : List Question) (ans : Answers) :
    generate_recommendations qs ans = newKeys [] (recCandidates ans qs) ∧
    (∀ t, t ∈ generate_recommendations qs ans ↔
      ∃ q ∈ qs, isBadAnswer ans q ∧ alookup recommendation_map q.id = some t) ∧
    (generate_recommendations qs ans).Nodup := by
  have h : generate_recommendations qs ans = newKeys [] (recCandidates ans qs) := by
    unfold generate_recommendations
    rw [foldl_rec ans qs []]
    simp
  refine ⟨h, ?_, by rw [h]; exact newKeys_nodup _ []⟩
  intro t
  rw [h, mem_newKeys]
  simp only [List.not_mem_nil, not_false_eq_true, and_true]
  unfold recCandidates
  rw [List.mem_filterMap]
  constructor
  · rintro ⟨q, hq, hl⟩
    have hmem := List.mem_filter.mp hq
    exact ⟨q, hmem.1, hmem.2, hl⟩
  · rintro ⟨q, hq, hbad, hl⟩
    exact ⟨q, List.mem_filter.mpr ⟨hq, hbad⟩, hl⟩

/-- C9: when every question is answered with its good answer, the risk is
zero, the security score is 100, the tier is "LOW", and no recommendation is
produced. -/
theorem claim_C9_all_good_answers (qs : List Question) (ans : Answers)
    (h : ∀ q ∈ qs, alookup ans q.id = some (goodAnswerOf q)) :
    (calculate_scores qs ans).1.risk_points = 0 ∧
    (calculate_scores qs ans).1.security_score = 100 ∧
    (calculate_scores qs ans).1.risk_level = "LOW" ∧
    generate_recommendations qs ans = [] := by
  have hbad : ∀ q ∈ qs, ¬isBadAnswer ans q := by
    intro q hq
    unfold isBadAnswer
    rw [h q hq]
    simp
  have hrp : (calculate_scores qs ans).1.risk_points = 0 := by
    rw [calc_risk_points]
    apply List.sum_eq_zero
    intro x hx
    obtain ⟨q, hq, rfl⟩ := List.mem_map.mp hx
    unfold riskContrib
    simp [hbad q hq]
  have hpct : (calculate_scores qs ans).1.risk_percentage = 0 := by
    rw [show (calculate_scores qs ans).1.risk_percentage =
        if ((qs.map (·.weight)).sum : Int) = 0 then (0:ℚ)
        else (((calculate_scores qs ans).1.risk_points : ℚ) /
          (((qs.map (·.weight)).sum : Int) : ℚ)) * 100 from rfl, hrp]
    split <;> simp
  have hscore : (calculate_scores qs ans).1.security_score = 100 := by
    rw [show (calculate_scores qs ans).1.security_score =
      100 - (calculate_scores qs ans).1.risk_percentage from rfl, hpct]
    ring
  refine ⟨hrp, hscore, ?_, ?_⟩
  · rw [show (calculate_scores qs ans).1.risk_level =
      riskLevelOf (calculate_scores qs ans).1.security_score from rfl, hscore]
    norm_num [riskLevelOf]
  · unfold generate_recommendations
    rw [foldl_rec ans qs []]
    have hfilter : qs.filter (fun q => isBadAnswer ans q) = [] :=
      List.filter_eq_nil_iff.mpr (by simpa using hbad)
    simp [recCandidates, hfilter, newKeys]

theorem claim_C9_witness :
    (calculate_scores [⟨"Q1", "P", 3, none⟩] [("Q1", "yes")]).1.risk_points = 0 ∧
    (calculate_scores [⟨"Q1", "P", 3, none⟩] [("Q1", "yes")]).1.security_score = 100 ∧
    (calculate_scores [⟨"Q1", "P", 3, none⟩] [("Q1", "yes")]).1.risk_level = "LOW" ∧
    generate_recommendations [⟨"Q1", "P", 3, none⟩] [("Q1", "yes")] = [] :=
  claim_C9_all_good_answers [⟨"Q1", "P", 3, none⟩] [("Q1", "yes")] (by decide)

theorem claim_C6_witness :
    (calculate_scores [⟨"A", "Protect", 5, none⟩, ⟨"B", "Protect", 15, none⟩]
        [("A", "no"), ("B", "yes")]).2.map Prod.fst = newKeys []
        ((([⟨"A", "Protect", 5, none⟩, ⟨"B", "Protect", 15, none⟩] : List Question)).map
          (·.pillar)) ∧
    alookup (calculate_scores [⟨"A", "Protect", 5, none⟩, ⟨"B", "Protect", 15, none⟩]
        [("A", "no"), ("B", "yes")]).2 "Protect" =
      some (if pillarWeight [⟨"A", "Protect", 5, none⟩, ⟨"B", "Protect", 15, none⟩] "Protect" = 0
        then (100:ℚ)
        else 100 - (((pillarRiskSum [("A", "no"), ("B", "yes")]
            [⟨"A", "Protect", 5, none⟩, ⟨"B", "Protect", 15, none⟩] "Protect" : Int) : ℚ) /
          ((pillarWeight [⟨"A", "Protect", 5, none⟩, ⟨"B", "Protect", 15, none⟩] "Protect" : Int) :
            ℚ)) * 100) :=
  ⟨(claim_C6_pillar_scores [⟨"A", "Protect", 5, none⟩, ⟨"B", "Protect", 15, none⟩]
      [("A", "no"), ("B", "yes")]).1,
   (claim_C6_pillar_scores [⟨"A", "Protect", 5, none⟩, ⟨"B", "Protect", 15, none⟩]
      [("A", "no"), ("B", "yes")]).2.2 "Protect" (by decide)⟩

lemma except_ok_bind {α β : Type} (a : α) (f : α → Except PyError β) :
    (Except.ok a >>= f) = f a := rfl

lemma except_error_bind {α β : Type} (e : PyError) (f : α → Except PyError β) :
    ((Except.error e : Except PyError α) >>= f) = Except.error e := rfl

lemma except_pure {α : Type} (a : α) : (pure a : Except PyError α) = Except.ok a := rfl

lemma scoreStepE_toRecord (ans : Answers) (st : ScoreState) (q : Question) :
    scoreStepE ans st q.toRecord = Except.ok (scoreStep ans st q) := by
  unfold scoreStepE scoreStep getKey Question.toRecord goodAnswerOf
  cases halk : alookup ans q.id with
  | none => simp [halk, except_ok_bind]
  | some a => by_cases hg : a = q.good_answer?.getD "yes" <;> simp [halk, hg, except_ok_bind]

lemma recStepE_toRecord (ans : Answers) (recs : List String) (q : Question) :
    recStepE ans recs q.toRecord = Except.ok (recStep ans recs q) := by
  unfold recStepE recStep getKey Question.toRecord goodAnswerOf
  cases halk : alookup ans q.id with
  | none => simp [halk, except_ok_bind, except_pure]
  | some a =>
    by_cases hg : a = q.good_answer?.getD "yes"
    · simp [halk, hg, except_ok_bind, except_pure]
    · cases ht : alookup recommendation_map q.id <;>
        simp [halk, hg, ht, except_ok_bind, except_pure]

lemma sumWeightsE_toRecord (qs : List Question) :
    sumWeightsE (qs.map Question.toRecord) = Except.ok ((qs.map (·.weight)).sum) := by
  induction qs with
  | nil => rfl
  | cons q qs ih =>
    show sumWeightsE (q.toRecord :: qs.map Question.toRecord) = _
    unfold sumWeightsE getKey
    rw [ih]
    simp [Question.toRecord, except_ok_bind, except_pure]

lemma scoreLoopE_toRecord (ans : Answers) (qs : List Question) :
    ∀ st : ScoreState,
      scoreLoopE ans st (qs.map Question.toRecord) =
        Except.ok (qs.foldl (scoreStep ans) st) := by
  induction qs with
  | nil => intro st; rfl
  | cons q qs ih =>
    intro st
    show scoreLoopE ans st (q.toRecord :: qs.map Question.toRecord) = _
    unfold scoreLoopE
    rw [scoreStepE_toRecord, except_ok_bind, ih]
    rfl

lemma recLoopE_toRecord (ans : Answers) (qs : List Question) :
    ∀ recs : List String,
      recLoopE ans recs (qs.map Question.toRecord) =
        Except.ok (qs.foldl (recStep ans) recs) := by
  induction qs with
  | nil => intro recs; rfl
  | cons q qs ih =>
    intro recs
    show recLoopE ans recs (q.toRecord :: qs.map Question.toRecord) = _
    unfold recLoopE
    rw [recStepE_toRecord, except_ok_bind, ih]
    rfl

lemma calculate_scoresE_toRecord (qs : List Question) (ans : Answers) :
    calculate_scoresE (qs.map Question.toRecord) ans =
      Except.ok (calculate_scores qs ans) := by
  unfold calculate_scoresE
  rw [sumWeightsE_toRecord, except_ok_bind, scoreLoopE_toRecord, except_ok_bind]
  rfl

lemma generate_recommendationsE_toRecord (qs : List Question) (ans : Answers) :
    generate_recommendationsE (qs.map Question.toRecord) ans =
      Except.ok (generate_recommendations qs ans) := by
  unfold generate_recommendationsE generate_recommendations
  exact recLoopE_toRecord ans qs []

lemma getKey_some {α : Type} (o : Option α) (v : α) (f : String) (h : o = some v) :
    getKey o f = Except.ok v := by
  unfold getKey; rw [h]

lemma getKey_none {α : Type} (o : Option α) (f : String) (h : o = none) :
    getKey o f = Except.error (PyError.keyError f) := by
  unfold getKey; rw [h]

lemma sumWeightsE_missing (qs : List QRecord) :
    (∃ q ∈ qs, q.weight? = none) →
      sumWeightsE qs = Except.error (PyError.keyError "weight") := by
  induction qs with
  | nil => intro h; simp at h
  | cons q qs ih =>
    intro h
    cases hqw : q.weight? with
    | none =>
      unfold sumWeightsE
      rw [getKey_none _ _ hqw, except_error_bind]
    | some w =>
      have h2 : ∃ q0 ∈ qs, q0.weight? = none := by
        obtain ⟨q0, hq0, hw0⟩ := h
        rcases List.mem_cons.mp hq0 with rfl | hmem
        · rw [hqw] at hw0; cases hw0
        · exact ⟨q0, hmem, hw0⟩
      unfold sumWeightsE
      rw [getKey_some _ _ _ hqw, except_ok_bind, ih h2, except_error_bind]

lemma sumWeightsE_ok (qs : List QRecord) :
    (∀ q ∈ qs, q.weight?.isSome) → ∃ w, sumWeightsE qs = Except.ok w := by
  induction qs with
  | nil => intro _; exact ⟨0, rfl⟩
  | cons q qs ih =>
    intro h
    obtain ⟨w, hw⟩ := Option.isSome_iff_exists.mp (h q (List.mem_cons_self q qs))
    obtain ⟨s, hs⟩ := ih (fun q0 hq0 => h q0 (List.mem_cons_of_mem q hq0))
    refine ⟨w + s, ?_⟩
    unfold sumWeightsE
    rw [getKey_some _ _ _ hw, except_ok_bind, hs, except_ok_bind]
    rfl

lemma scoreStepE_pillar_missing (ans : Answers) (st : ScoreState) (q : QRecord)
    (h : q.pillar? = none) :
    scoreStepE ans st q = Except.error (PyError.keyError "pillar") := by
  unfold scoreStepE
  rw [getKey_none _ _ h, except_error_bind]

lemma scoreStepE_id_missing (ans : Answers) (st : ScoreState) (q : QRecord)
    (p : String) (w : Int) (hp : q.pillar? = some p) (hw : q.weight? = some w)
    (hi : q.id? = none) :
    scoreStepE ans st q = Except.error (PyError.keyError "id") := by
  unfold scoreStepE
  rw [getKey_some _ _ _ hp, except_ok_bind, getKey_some _ _ _ hw, except_ok_bind,
    getKey_none _ _ hi, except_error_bind]

lemma scoreLoopE_error (ans : Answers) (qs : List QRecord) :
    (∀ q ∈ qs, q.weight?.isSome) →
    (∃ q ∈ qs, q.pillar? = none ∨ q.id? = none) →
    ∀ st : ScoreState, ∃ f, (f = "pillar" ∨ f = "id") ∧
      scoreLoopE ans st qs = Except.error (PyError.keyError f) := by
  induction qs with
  | nil => intro _ h; simp at h
  | cons q qs ih =>
    intro hw h st
    cases hqp : q.pillar? with
    | none =>
      refine ⟨"pillar", Or.inl rfl, ?_⟩
      unfold scoreLoopE
      rw [scoreStepE_pillar_missing ans st q hqp, except_error_bind]
    | some p =>
      obtain ⟨w, hqw⟩ := Option.isSome_iff_exists.mp (hw q (List.mem_cons_self q qs))
      cases hqi : q.id? with
      | none =>
        refine ⟨"id", Or.inr rfl, ?_⟩
        unfold scoreLoopE
        rw [scoreStepE_id_missing ans st q p w hqp hqw hqi, except_error_bind]
      | some i =>
        have h2 : ∃ q0 ∈ qs, q0.pillar? = none ∨ q0.id? = none := by
          obtain ⟨q0, hq0, hc⟩ := h
          rcases List.mem_cons.mp hq0 with rfl | hmem
          · rcases hc with hc | hc
            · rw [hqp] at hc; cases hc
            · rw [hqi] at hc; cases hc
          · exact ⟨q0, hmem, hc⟩
        have hq' : q = Question.toRecord ⟨i, p, w, q.good_answer?⟩ := by
          unfold Question.toRecord
          cases q
          simp only at hqp hqw hqi
          subst hqp
          subst hqw
          subst hqi
          rfl
        obtain ⟨f, hf, herr⟩ :=
          ih (fun q0 hq0 => hw q0 (List.mem_cons_of_mem q hq0)) h2
            (scoreStep ans st ⟨i, p, w, q.good_answer?⟩)
        refine ⟨f, hf, ?_⟩
        unfold scoreLoopE
        rw [hq', scoreStepE_toRecord, except_ok_bind, herr]

lemma valid_extract (qs : List QRecord)
    (h : ∀ q ∈ qs, q.id?.isSome ∧ q.pillar?.isSome ∧ q.weight?.isSome) :
    ∃ qs' : List Question, qs = qs'.map Question.toRecord := by
  induction qs with
  | nil => exact ⟨[], rfl⟩
  | cons q qs ih =>
    obtain ⟨qs', hqs'⟩ := ih (fun q0 hq0 => h q0 (List.mem_cons_of_mem q hq0))
    obtain ⟨hi, hp, hw⟩ := h q (List.mem_cons_self q qs)
    obtain ⟨i, hie⟩ := Option.isSome_iff_exists.mp hi
    obtain ⟨p, hpe⟩ := Option.isSome_iff_exists.mp hp
    obtain ⟨w, hwe⟩ := Option.isSome_iff_exists.mp hw
    refine ⟨⟨i, p, w, q.good_answer?⟩ :: qs', ?_⟩
    rw [List.map_cons, ← hqs']
    congr 1
    unfold Question.toRecord
    cases q
    simp only at hie hpe hwe
    subst hie
    subst hpe
    subst hwe
    rfl

lemma alookup_cons_ne {α : Type} (k k0 : String) (v : α) (d : List (String × α))
    (h : k0 ≠ k) : alookup ((k, v) :: d) k0 = alookup d k0 := by
  simp [alookup, h]

lemma scoreStep_foreign (ans : Answers) (st : ScoreState) (q : Question)
    (k v : String) (h : q.id ≠ k) :
    scoreStep ((k, v) :: ans) st q = scoreStep ans st q := by
  unfold scoreStep
  rw [alookup_cons_ne k q.id v ans h]

lemma foldl_scoreStep_foreign (ans : Answers) (qs : List Question) (k v : String)
    (h : k ∉ qs.map (·.id)) :
    ∀ st : ScoreState,
      qs.foldl (scoreStep ((k, v) :: ans)) st = qs.foldl (scoreStep ans) st := by
  induction qs with
  | nil => intro st; rfl
  | cons q qs ih =>
    intro st
    simp only [List.map_cons, List.mem_cons, not_or] at h
    simp only [List.foldl_cons]
    rw [scoreStep_foreign ans st q k v (fun he => h.1 he.symm), ih h.2]

lemma recStep_foreign (ans : Answers) (recs : List String) (q : Question)
    (k v : String) (h : q.id ≠ k) :
    recStep ((k, v) :: ans) recs q = recStep ans recs q := by
  unfold recStep
  rw [alookup_cons_ne k q.id v ans h]

lemma foldl_recStep_foreign (ans : Answers) (qs : List Question) (k v : String)
    (h : k ∉ qs.map (·.id)) :
    ∀ recs : List String,
      qs.foldl (recStep ((k, v) :: ans)) recs = qs.foldl (recStep ans) recs := by
  induction qs with
  | nil => intro recs; rfl
  | cons q qs ih =>
    intro recs
    simp only [List.map_cons, List.mem_cons, not_or] at h
    simp only [List.foldl_cons]
    rw [recStep_foreign ans recs q k v (fun he => h.1 he.symm), ih h.2]

/-- C4 counterexample: on a record missing `weight`, `calculate_scores`
raises Python's `KeyError("weight")` - a runtime lookup error, not the
configuration-kind structural-validation error the claim requires. -/
theorem claim_C4_counterexample :
    calculate_scoresE [⟨some "Q1", some "Protect", none, none⟩] [] =
        Except.error (PyError.keyError "weight") ∧
      calculate_scoresE [⟨some "Q1", some "Protect", none, none⟩] [] ≠
        Except.error PyError.configurationError := by
  have h : calculate_scoresE [⟨some "Q1", some "Protect", none, none⟩] [] =
      Except.error (PyError.keyError "weight") := rfl
  exact ⟨h, by rw [h]; simp⟩

/-- C4 amended: a catalog record missing `weight`, `pillar`, or `id` makes
`calculate_scores` raise `KeyError` for one of those field names at its first
access (during the `max_risk` sum for `weight`, inside the scoring loop for
`pillar`/`id`); no configuration-kind validation error is raised and no
result is returned. -/
theorem claim_C4_amended_keyerror (qs : List QRecord) (ans : Answers)
    (h : ∃ q ∈ qs, q.weight? = none ∨ q.pillar? = none ∨ q.id? = none) :
    ∃ f, (f = "weight" ∨ f = "pillar" ∨ f = "id") ∧
      calculate_scoresE qs ans = Except.error (PyError.keyError f) := by
  by_cases hw : ∃ q ∈ qs, q.weight? = none
  · refine ⟨"weight", Or.inl rfl, ?_⟩
    unfold calculate_scoresE
    rw [sumWeightsE_missing qs hw, except_error_bind]
  · push_neg at hw
    have hw' : ∀ q ∈ qs, q.weight?.isSome := fun q hq =>
      Option.ne_none_iff_isSome.mp (hw q hq)
    have h2 : ∃ q ∈ qs, q.pillar? = none ∨ q.id? = none := by
      obtain ⟨q, hq, hc⟩ := h
      rcases hc with hc | hc | hc
      · exact absurd hc (hw q hq)
      · exact ⟨q, hq, Or.inl hc⟩
      · exact ⟨q, hq, Or.inr hc⟩
    obtain ⟨f, hf, herr⟩ := scoreLoopE_error ans qs hw' h2 ⟨0, [], []⟩
    obtain ⟨w, hsum⟩ := sumWeightsE_ok qs hw'
    refine ⟨f, Or.inr hf, ?_⟩
    unfold calculate_scoresE
    rw [hsum, except_ok_bind, herr, except_error_bind]

theorem claim_C4_amended_witness :
    ∃ f, (f = "weight" ∨ f = "pillar" ∨ f = "id") ∧
      calculate_scoresE [⟨some "Q1", some "Protect", none, none⟩] [] =
        Except.error (PyError.keyError f) :=
  claim_C4_amended_keyerror [⟨some "Q1", some "Protect", none, none⟩] []
    ⟨⟨some "Q1", some "Protect", none, none⟩, by decide⟩

/-- C8: on a structurally valid catalog both operations succeed for every
answers mapping, and an answer entry whose id is not in the catalog has no
effect on either result. -/
theorem claim_C8_no_errors_foreign_ignored :
    (∀ (qs : List QRecord) (ans : Answers), structurallyValid qs →
      (∃ r, calculate_scoresE qs ans = Except.ok r) ∧
      (∃ l, generate_recommendationsE qs ans = Except.ok l)) ∧
    (∀ (qs : List Question) (ans : Answers) (k v : String), k ∉ qs.map (·.id) →
      calculate_scores qs ((k, v) :: ans) = calculate_scores qs ans ∧
      generate_recommendations qs ((k, v) :: ans) = generate_recommendations qs ans) := by
  constructor
  · intro qs ans hvalid
    have hfields : ∀ q ∈ qs, q.id?.isSome ∧ q.pillar?.isSome ∧ q.weight?.isSome := by
      intro q hq
      obtain ⟨h1, h2, h3, _⟩ := hvalid.1 q hq
      exact ⟨h1, h2, h3⟩
    obtain ⟨qs', rfl⟩ := valid_extract qs hfields
    exact ⟨⟨calculate_scores qs' ans, calculate_scoresE_toRecord qs' ans⟩,
      ⟨generate_recommendations qs' ans, generate_recommendationsE_toRecord qs' ans⟩⟩
  · intro qs ans k v hk
    constructor
    · unfold calculate_scores
      rw [foldl_scoreStep_foreign ans qs k v hk]
    · unfold generate_recommendations
      rw [foldl_recStep_foreign ans qs k v hk]

theorem claim_C8_witness :
    (∃ r, calculate_scoresE [⟨some "Q1", some "P", some 2, none⟩] [("Q1", "no")] =
      Except.ok r) ∧
    calculate_scores [⟨"Q1", "P", 2, none⟩] [("X", "maybe"), ("Q1", "no")] =
      calculate_scores [⟨"Q1", "P", 2, none⟩] [("Q1", "no")] :=
  ⟨(claim_C8_no_errors_foreign_ignored.1 [⟨some "Q1", some "P", some 2, none⟩]
      [("Q1", "no")] (by decide)).1,
   (claim_C8_no_errors_foreign_ignored.2 [⟨"Q1", "P", 2, none⟩] [("Q1", "no")]
      "X" "maybe" (by decide)).1⟩
